import Mathlib

/-!
Verification development for the AR Deathmatch frontend
(`src/app/page.tsx`).  The client logic is embedded shallowly:

* the pose-based hit-scoring engine (`handleShoot`, lines 188-338) becomes a
  pure function over keypoint lists with exact rational arithmetic;
* the session state machine (the `playerUpdate` / `gameOver` socket handlers,
  `handleReset`, `handleGunChange`) becomes a step function over an explicit
  `GameState`, with reachability as iterated event delivery.

Numeric conventions: JavaScript numbers are modelled as `ℚ`.  The source
compares `Math.sqrt((x-cx)^2+(y-cy)^2) < radius`; since every radius is
positive this is equivalent to the squared comparison used in `inRange`,
which stays inside `ℚ`.  The zone boundaries `480*0.5 = 240` and
`480*0.85 = 408` are exact in IEEE double arithmetic as well, so the
rational model agrees with the source on these constants.
-/

/- The Batteries rational-number operations are `@[irreducible]`, which only
blocks elaborator-side evaluation; the kernel ignores reducibility.  Concrete
evaluations of the embedded functions below are settled with `decide`, so the
arithmetic must be visible to unfolding. -/
set_option allowUnsafeReducibility true in
attribute [semireducible] Rat.add Rat.mul Rat.inv Rat.sub Rat.div Rat.neg Rat.ofScientific

namespace ARDM

/-- A PoseNet keypoint: `{part, position: {x, y}, score}`.  The part is kept
as a string because the source compares `k.part === part` on strings. -/
structure Keypoint where
  part : String
  x : ℚ
  y : ℚ
  score : ℚ
deriving DecidableEq

/-- Source line 220. -/
def headParts : List String := ["nose", "leftEye", "rightEye", "leftEar", "rightEar"]

/-- Source line 221. -/
def torsoParts : List String := ["leftShoulder", "rightShoulder", "leftHip", "rightHip"]

/-- Source line 222. -/
def lowerBodyParts : List String := ["leftHip", "rightHip"]

/-- Source line 223: center of the 640x480 hit detection area. -/
def centerX : ℚ := 320

/-- Source line 224. -/
def centerY : ℚ := 240

/-- Source line 228: collective-score threshold. -/
def threshold : ℚ := 1/2

/-- Source line 266: `480 * 0.5`. -/
def headZoneMax : ℚ := 480 * (1/2)

/-- Source line 267. -/
def torsoZoneMin : ℚ := headZoneMax

/-- Source line 268: `480 * 0.85`. -/
def torsoZoneMax : ℚ := 480 * (85/100)

/-- The weapon selection, source line 29. -/
inductive Gun
  | sniper
  | pistol
  | shotgun
deriving DecidableEq

/-- Source line 225:
`selectedGun === "sniper" ? 100 : selectedGun === "pistol" ? 200 : 400`. -/
def radius : Gun → ℚ
  | Gun.sniper => 100
  | Gun.pistol => 200
  | Gun.shotgun => 400

/-- Source lines 241-243 (and 249-251, 257-259):
`parts.map(part => poses.keypoints.find(k => k.part === part))
      .filter(k => k && k.score > 0.3)`. -/
def selectKeypoints (parts : List String) (kps : List Keypoint) : List Keypoint :=
  ((parts.map fun part => kps.find? fun k => k.part == part).filterMap id).filter
    fun k => decide ((3 : ℚ)/10 < k.score)

/-- Source lines 244-246: mean of the selected keypoints' scores, `0` when
none qualify. -/
def collectiveScore (ks : List Keypoint) : ℚ :=
  if ks.length = 0 then 0 else (ks.map Keypoint.score).sum / (ks.length : ℚ)

def headKeypoints (kps : List Keypoint) : List Keypoint :=
  selectKeypoints headParts kps

def torsoKeypoints (kps : List Keypoint) : List Keypoint :=
  selectKeypoints torsoParts kps

def lowerBodyKeypoints (kps : List Keypoint) : List Keypoint :=
  selectKeypoints lowerBodyParts kps

/-- The per-shot parameters computed before the loop: the selected gun and the
three collective scores (source lines 244-262). -/
structure ShotParams where
  gun : Gun
  headScore : ℚ
  torsoScore : ℚ
  lowerBodyScore : ℚ
deriving DecidableEq

def shotParams (g : Gun) (kps : List Keypoint) : ShotParams :=
  { gun := g
    headScore := collectiveScore (headKeypoints kps)
    torsoScore := collectiveScore (torsoKeypoints kps)
    lowerBodyScore := collectiveScore (lowerBodyKeypoints kps) }

/-- Source line 278: `[...headKeypoints, ...torsoKeypoints, ...lowerBodyKeypoints]`. -/
def allKeypoints (kps : List Keypoint) : List Keypoint :=
  headKeypoints kps ++ torsoKeypoints kps ++ lowerBodyKeypoints kps

/-- Source lines 283-288: `Math.sqrt((x-320)^2 + (y-240)^2) < radius`.  All
radii are positive, so the squared form below is equivalent. -/
def inRange (g : Gun) (k : Keypoint) : Bool :=
  decide ((k.x - centerX)^2 + (k.y - centerY)^2 < (radius g)^2)

/-- Source line 289: `headParts.includes(part) && y < headZoneMax && headScore > threshold`. -/
def headHit (p : ShotParams) (k : Keypoint) : Bool :=
  headParts.contains k.part && decide (k.y < headZoneMax) && decide (threshold < p.headScore)

/-- Source lines 296-300. -/
def torsoHit (p : ShotParams) (k : Keypoint) : Bool :=
  torsoParts.contains k.part && decide (torsoZoneMin ≤ k.y) && decide (k.y < torsoZoneMax)
    && decide (threshold < p.torsoScore)

/-- Source lines 308-311. -/
def lowerBodyHit (p : ShotParams) (k : Keypoint) : Bool :=
  lowerBodyParts.contains k.part && decide (torsoZoneMax ≤ k.y)
    && decide (threshold < p.lowerBodyScore)

/-- The three body zones; the source stores them as the strings
`"Headshot"`, `"Torso shot"`, `"Lower body shot"` in `hitType`. -/
inductive Zone
  | head
  | torso
  | lowerBody
deriving DecidableEq

/-- State of the detection loop, source lines 272-275 (`hitType = ""` is
modelled as `none`). -/
structure LoopState where
  hitDetected : Bool
  damage : Nat
  bestScore : ℚ
  hitType : Option Zone
deriving DecidableEq

def initLoop : LoopState :=
  { hitDetected := false, damage := 0, bestScore := 0, hitType := none }

/-- One iteration of the `for (const keypoint of allKeypoints)` loop, source
lines 279-322.  Note that `hitDetected = true` (line 320) fires for any
keypoint inside the radius, whether or not a zone branch fired. -/
def step (p : ShotParams) (s : LoopState) (k : Keypoint) : LoopState :=
  if inRange p.gun k then
    let s1 :=
      if headHit p k then
        (if s.bestScore < p.headScore then
          { s with bestScore := p.headScore, damage := 20, hitType := some Zone.head }
        else s)
      else if torsoHit p k then
        (if s.bestScore < p.torsoScore then
          { s with bestScore := p.torsoScore, damage := 15, hitType := some Zone.torso }
        else s)
      else if lowerBodyHit p k then
        (if s.bestScore < p.lowerBodyScore then
          { s with bestScore := p.lowerBodyScore, damage := 10, hitType := some Zone.lowerBody }
        else s)
      else s
    { s1 with hitDetected := true }
  else s

def runLoop (p : ShotParams) (s : LoopState) (ks : List Keypoint) : LoopState :=
  ks.foldl (step p) s

/-- The complete hit evaluation of one shot for a pose estimate `kps`. -/
def evalShot (g : Gun) (kps : List Keypoint) : LoopState :=
  runLoop (shotParams g kps) initLoop (allKeypoints kps)

/-- Payload of the `shoot` relay event, source line 327. -/
structure ShootMsg where
  shooterId : Option String
  damage : Nat
deriving DecidableEq

/-- Source lines 324-334: `if (hitDetected) socket.emit("shoot", {shooterId: socketId, damage})`,
otherwise nothing is sent. -/
def shootEmission (socketId : Option String) (g : Gun) (kps : List Keypoint) :
    Option ShootMsg :=
  if (evalShot g kps).hitDetected then
    some { shooterId := socketId, damage := (evalShot g kps).damage }
  else none

/-! ### Derived views of the loop (used to state and prove the claims) -/

/-- Which zone branch (if any) a keypoint enters, in the source's
`if / else if / else if` order. -/
def classify (p : ShotParams) (k : Keypoint) : Option Zone :=
  if headHit p k then some Zone.head
  else if torsoHit p k then some Zone.torso
  else if lowerBodyHit p k then some Zone.lowerBody
  else none

def zoneScore (p : ShotParams) : Zone → ℚ
  | Zone.head => p.headScore
  | Zone.torso => p.torsoScore
  | Zone.lowerBody => p.lowerBodyScore

/-- The damage literals of the three branches (lines 292, 304, 315). -/
def zoneDamage : Zone → Nat
  | Zone.head => 20
  | Zone.torso => 15
  | Zone.lowerBody => 10

def classifyDamage (p : ShotParams) (k : Keypoint) : Nat :=
  match classify p k with
  | some z => zoneDamage z
  | none => 0

/-- A keypoint that is in range and enters some zone branch. -/
def qualified (p : ShotParams) (k : Keypoint) : Bool :=
  inRange p.gun k && (classify p k).isSome

/-- The competing collective score a keypoint contributes (0 if it enters no
branch). -/
def kscore (p : ShotParams) (k : Keypoint) : ℚ :=
  match classify p k with
  | some z => zoneScore p z
  | none => 0

/-- The running best score of the loop, as a fold. -/
def runBest (p : ShotParams) (b : ℚ) (ks : List Keypoint) : ℚ :=
  ks.foldl (fun m k => if qualified p k then max m (kscore p k) else m) b

/-- The keypoint the loop's winner comes from: the first qualified keypoint
that strictly improves on the incoming best `b` and achieves the final
best `B`. -/
def bestPred (p : ShotParams) (b B : ℚ) (k : Keypoint) : Bool :=
  qualified p k && decide (b < kscore p k) && decide (kscore p k = B)

/-- `step` written through `classify`: the zone branch entered is the first of
head/torso/lower-body whose condition holds, and the update replaces the best
score only on a strict improvement. -/
def stepC (p : ShotParams) (s : LoopState) (k : Keypoint) : LoopState :=
  if inRange p.gun k then
    let s1 :=
      match classify p k with
      | some z =>
          if s.bestScore < zoneScore p z then
            { s with bestScore := zoneScore p z, damage := zoneDamage z, hitType := some z }
          else s
      | none => s
    { s1 with hitDetected := true }
  else s


/-! ### Session state machine (socket handlers and local actions) -/

/-- Source lines 9-13. -/
structure Player where
  id : String
  health : Int
  ready : Bool
deriving DecidableEq

/-- Source line 17: `"waiting" | "ready" | "over"`. -/
inductive GameStatus
  | waiting
  | ready
  | over
deriving DecidableEq

/-- The client state relevant to the session machine and the shot engine:
`players`, `gameStatus`, `winner`, `socketId`, `lastShot`, `selectedGun`
(source lines 16-29).  `lastShot` is a `Date.now()` millisecond stamp. -/
structure GameState where
  players : List Player
  gameStatus : GameStatus
  winner : Option String
  socketId : Option String
  lastShot : Int
  selectedGun : Gun
deriving DecidableEq

/-- The `useState` initial values (source lines 16-29). -/
def initialState : GameState :=
  { players := [], gameStatus := GameStatus.waiting, winner := none, socketId := none,
    lastShot := 0, selectedGun := Gun.pistol }

/-- The `socket.on("playerUpdate")` handler, source lines 53-59:
`setPlayers(updatedPlayers)`; transition to `ready` only when the list has
exactly two entries and the phase is `waiting`. -/
def onPlayerUpdate (s : GameState) (updatedPlayers : List Player) : GameState :=
  if updatedPlayers.length = 2 ∧ s.gameStatus = GameStatus.waiting then
    { s with players := updatedPlayers, gameStatus := GameStatus.ready }
  else
    { s with players := updatedPlayers }

/-- The `socket.on("gameOver")` handler, source lines 61-68 (the audio cue is
presentation glue and not modelled). -/
def onGameOver (s : GameState) (winner : String) : GameState :=
  { s with gameStatus := GameStatus.over, winner := some winner }

/-- The `socket.on("connect")` handler, source lines 47-51 (the `joinGame`
emission carries no payload and does not change local state). -/
def onConnect (s : GameState) (id : String) : GameState :=
  { s with socketId := some id }

/-- `handleReset`, source lines 340-345. -/
def handleReset (s : GameState) : GameState :=
  { s with gameStatus := GameStatus.waiting, winner := none }

/-- `handleGunChange`, source lines 347-350. -/
def handleGunChange (s : GameState) (gun : Gun) : GameState :=
  { s with selectedGun := gun }

/-- Presence of the mutable collaborator handles checked at the top of
`handleShoot` (source line 190): `socketRef.current`, `netRef.current`,
`videoRef.current`. -/
structure Handles where
  socket : Bool
  net : Bool
  video : Bool
deriving DecidableEq

/-- Observable outcome of one `handleShoot` invocation: the state afterwards,
whether `estimateSinglePose` was invoked, and the `shoot` message sent to the
relay (if any). -/
structure ShootResult where
  state : GameState
  poseCalled : Bool
  emitted : Option ShootMsg
deriving DecidableEq

/-- `handleShoot`, source lines 188-338.  Guard order is the source's: missing
refs (line 190), then the 500ms cooldown (line 200), then `setLastShot(now)`
(line 204) and the guarded pose-estimation/`try` block.  `pose = none` models
`estimateSinglePose` throwing, which the `catch` (line 335) swallows; the
1000ms `readyState` grace wait changes no modelled state. -/
def handleShoot (s : GameState) (h : Handles) (now : Int)
    (pose : Option (List Keypoint)) : ShootResult :=
  if ¬ (h.socket = true ∧ h.net = true ∧ h.video = true) then
    { state := s, poseCalled := false, emitted := none }
  else if now - s.lastShot < 500 then
    { state := s, poseCalled := false, emitted := none }
  else
    let s' := { s with lastShot := now }
    match pose with
    | none => { state := s', poseCalled := true, emitted := none }
    | some kps =>
        { state := s', poseCalled := true,
          emitted := shootEmission s.socketId s.selectedGun kps }

/-- The render function mounts the `<video>` element only in the
`gameStatus === "ready"` branch (source lines 382-446); in the other branches
`videoRef.current` is detached (`null`). -/
def rendersVideo (st : GameStatus) : Bool :=
  st == GameStatus.ready

/-- The events that drive the client state. -/
inductive Event
  | connect (id : String)
  | playerUpdate (players : List Player)
  | gameOver (winner : String)
  | reset
  | gunChange (gun : Gun)
  | shoot (h : Handles) (now : Int) (pose : Option (List Keypoint))

/-- Effect of one delivered event / local action on the client state. -/
def stepEvent (s : GameState) : Event → GameState
  | Event.connect id => onConnect s id
  | Event.playerUpdate ps => onPlayerUpdate s ps
  | Event.gameOver w => onGameOver s w
  | Event.reset => handleReset s
  | Event.gunChange g => handleGunChange s g
  | Event.shoot h now pose => (handleShoot s h now pose).state

/-- A state is reachable if some finite event sequence produces it from the
initial state. -/
def reachable (s : GameState) : Prop :=
  ∃ evs : List Event, s = evs.foldl stepEvent initialState

/-- Concrete pose used to analyse the tie-break: both hips with score 0.6,
leftHip at (320,430) in the lower-body band, rightHip at (320,300) in the
torso band. -/
def pose3 : List Keypoint :=
  [{ part := "leftHip", x := 320, y := 430, score := 3/5 },
   { part := "rightHip", x := 320, y := 300, score := 3/5 }]

/-! ### Structural lemmas about the detection loop -/

theorem step_eq (p : ShotParams) (s : LoopState) (k : Keypoint) :
    step p s k = stepC p s k := by
  unfold step stepC classify
  cases hr : inRange p.gun k <;>
    cases hh : headHit p k <;>
      cases ht : torsoHit p k <;>
        cases hl : lowerBodyHit p k <;>
          simp [zoneScore, zoneDamage]

theorem step_bestScore (p : ShotParams) (s : LoopState) (k : Keypoint) :
    (step p s k).bestScore =
      if qualified p k then max s.bestScore (kscore p k) else s.bestScore := by
  rw [step_eq]
  cases hr : inRange p.gun k
  · simp [stepC, qualified, hr]
  · cases hc : classify p k with
    | none => simp [stepC, qualified, kscore, hr, hc]
    | some z =>
        rcases lt_or_le s.bestScore (zoneScore p z) with hlt | hle
        · simp [stepC, qualified, kscore, hr, hc, if_pos hlt, max_eq_right hlt.le]
        · simp [stepC, qualified, kscore, hr, hc, if_neg (not_lt.mpr hle), max_eq_left hle]

theorem step_hitDetected (p : ShotParams) (s : LoopState) (k : Keypoint) :
    (step p s k).hitDetected = (s.hitDetected || inRange p.gun k) := by
  rw [step_eq]
  cases hr : inRange p.gun k
  · simp [stepC, hr]
  · cases hc : classify p k with
    | none => simp [stepC, hr, hc]
    | some z =>
        rcases lt_or_le s.bestScore (zoneScore p z) with hlt | hle
        · simp [stepC, hr, hc, if_pos hlt]
        · simp [stepC, hr, hc, if_neg (not_lt.mpr hle)]

theorem step_typeDamage (p : ShotParams) (s : LoopState) (k : Keypoint) :
    ((step p s k).hitType, (step p s k).damage) =
      if qualified p k = true ∧ s.bestScore < kscore p k then
        (classify p k, classifyDamage p k)
      else (s.hitType, s.damage) := by
  rw [step_eq]
  cases hr : inRange p.gun k
  · simp [stepC, qualified, hr]
  · cases hc : classify p k with
    | none => simp [stepC, qualified, kscore, hr, hc]
    | some z =>
        rcases lt_or_le s.bestScore (zoneScore p z) with hlt | hle
        · simp [stepC, qualified, kscore, classifyDamage, hr, hc, if_pos hlt]
        · simp [stepC, qualified, kscore, classifyDamage, hr, hc,
            if_neg (not_lt.mpr hle), not_lt.mpr hle]

theorem runBest_cons (p : ShotParams) (b : ℚ) (k : Keypoint) (ks : List Keypoint) :
    runBest p b (k :: ks) =
      runBest p (if qualified p k then max b (kscore p k) else b) ks := rfl

theorem le_runBest (p : ShotParams) (ks : List Keypoint) :
    ∀ b : ℚ, b ≤ runBest p b ks := by
  induction ks with
  | nil => intro b; exact le_rfl
  | cons k ks ih =>
      intro b
      rw [runBest_cons]
      refine le_trans ?_ (ih _)
      split
      · exact le_max_left _ _
      · exact le_rfl

theorem runBest_mem (p : ShotParams) (ks : List Keypoint) :
    ∀ b : ℚ, runBest p b ks ≠ b →
      ∃ k ∈ ks, qualified p k = true ∧ kscore p k = runBest p b ks := by
  induction ks with
  | nil => intro b h; exact absurd rfl h
  | cons k ks ih =>
      intro b h
      rw [runBest_cons] at h ⊢
      by_cases hq : qualified p k = true
      · rw [if_pos hq] at h ⊢
        by_cases h2 : runBest p (max b (kscore p k)) ks = max b (kscore p k)
        · rw [h2] at h ⊢
          rcases max_cases b (kscore p k) with ⟨he, _⟩ | ⟨he, _⟩
          · exact absurd he h
          · exact ⟨k, List.mem_cons_self _ _, hq, he.symm⟩
        · obtain ⟨k', hk', hq', he'⟩ := ih _ h2
          exact ⟨k', List.mem_cons_of_mem _ hk', hq', he'⟩
      · rw [if_neg hq] at h ⊢
        obtain ⟨k', hk', hq', he'⟩ := ih _ h
        exact ⟨k', List.mem_cons_of_mem _ hk', hq', he'⟩

theorem kscore_le_runBest (p : ShotParams) (ks : List Keypoint) (k : Keypoint) :
    ∀ b : ℚ, k ∈ ks → qualified p k = true → kscore p k ≤ runBest p b ks := by
  induction ks with
  | nil => intro b hk _; cases hk
  | cons k' ks ih =>
      intro b hk hq
      rw [runBest_cons]
      rcases List.mem_cons.mp hk with rfl | hk'
      · rw [if_pos hq]
        exact le_trans (le_max_right _ _) (le_runBest _ _ _)
      · exact ih _ hk' hq

theorem runBest_absorb (p : ShotParams) (ks : List Keypoint) :
    ∀ b : ℚ, (∀ k ∈ ks, qualified p k = true → kscore p k ≤ b) → runBest p b ks = b := by
  induction ks with
  | nil => intro b _; rfl
  | cons k ks ih =>
      intro b hb
      rw [runBest_cons]
      by_cases hq : qualified p k = true
      · rw [if_pos hq, max_eq_left (hb k (List.mem_cons_self _ _) hq)]
        exact ih b fun k' hk' => hb k' (List.mem_cons_of_mem _ hk')
      · rw [if_neg hq]
        exact ih b fun k' hk' => hb k' (List.mem_cons_of_mem _ hk')

/-- `List.find?` only depends on the predicate's values on the list. -/
theorem find_congr_mem {α : Type} (q1 q2 : α → Bool) :
    ∀ l : List α, (∀ a ∈ l, q1 a = q2 a) → l.find? q1 = l.find? q2 := by
  intro l
  induction l with
  | nil => intro _; rfl
  | cons a l ih =>
      intro h
      have ha := h a (List.mem_cons_self _ _)
      cases h1 : q1 a
      · rw [List.find?_cons_of_neg _ (by simp [h1]),
          List.find?_cons_of_neg _ (by rw [← ha]; simp [h1])]
        exact ih fun a' ha' => h a' (List.mem_cons_of_mem _ ha')
      · rw [List.find?_cons_of_pos _ h1, List.find?_cons_of_pos _ (ha ▸ h1)]

/-- A keypoint that enters a zone branch contributes a collective score above
the 0.5 threshold. -/
theorem threshold_lt_kscore (p : ShotParams) (k : Keypoint)
    (hq : qualified p k = true) : threshold < kscore p k := by
  by_cases h1 : headHit p k = true
  · have hp := h1
    simp only [headHit, Bool.and_eq_true, decide_eq_true_eq] at hp
    simpa [kscore, classify, h1, zoneScore] using hp.2
  · by_cases h2 : torsoHit p k = true
    · have hp := h2
      simp only [torsoHit, Bool.and_eq_true, decide_eq_true_eq] at hp
      simpa [kscore, classify, h1, h2, zoneScore] using hp.2
    · by_cases h3 : lowerBodyHit p k = true
      · have hp := h3
        simp only [lowerBodyHit, Bool.and_eq_true, decide_eq_true_eq] at hp
        simpa [kscore, classify, h1, h2, h3, zoneScore] using hp.2
      · exfalso
        have hc := hq
        simp only [qualified, Bool.and_eq_true] at hc
        have hsome := hc.2
        simp [classify, h1, h2, h3] at hsome

theorem zero_lt_kscore (p : ShotParams) (k : Keypoint)
    (hq : qualified p k = true) : 0 < kscore p k :=
  lt_trans (by norm_num [threshold]) (threshold_lt_kscore p k hq)

theorem runLoop_cons (p : ShotParams) (s : LoopState) (k : Keypoint) (ks : List Keypoint) :
    runLoop p s (k :: ks) = runLoop p (step p s k) ks := rfl

theorem runLoop_bestScore (p : ShotParams) (ks : List Keypoint) :
    ∀ s : LoopState, (runLoop p s ks).bestScore = runBest p s.bestScore ks := by
  induction ks with
  | nil => intro s; rfl
  | cons k ks ih =>
      intro s
      rw [runLoop_cons, ih, step_bestScore, runBest_cons]

theorem runLoop_hitDetected (p : ShotParams) (ks : List Keypoint) :
    ∀ s : LoopState,
      (runLoop p s ks).hitDetected = (s.hitDetected || ks.any (inRange p.gun)) := by
  induction ks with
  | nil => intro s; simp [runLoop]
  | cons k ks ih =>
      intro s
      rw [runLoop_cons, ih, step_hitDetected, List.any_cons, Bool.or_assoc]

/-- Winner characterization of the loop: the final `(hitType, damage)` pair is
determined by the first keypoint that is qualified, strictly improves on the
incoming best score, and reaches the final best score. -/
theorem runLoop_typeDamage (p : ShotParams) (ks : List Keypoint) :
    ∀ s : LoopState,
      ((runLoop p s ks).hitType, (runLoop p s ks).damage) =
        match ks.find? (bestPred p s.bestScore (runBest p s.bestScore ks)) with
        | some k => (classify p k, classifyDamage p k)
        | none => (s.hitType, s.damage) := by
  induction ks with
  | nil => intro s; rfl
  | cons k ks ih =>
      intro s
      rw [runLoop_cons]
      by_cases hq : qualified p k = true
      · by_cases hlt : s.bestScore < kscore p k
        · -- k is qualified and strictly improves the running best
          have hbs : (step p s k).bestScore = kscore p k := by
            rw [step_bestScore, if_pos hq, max_eq_right hlt.le]
          have hstep : ((step p s k).hitType, (step p s k).damage)
              = (classify p k, classifyDamage p k) := by
            rw [step_typeDamage, if_pos ⟨hq, hlt⟩]
          have hBB : runBest p s.bestScore (k :: ks) = runBest p (kscore p k) ks := by
            rw [runBest_cons, if_pos hq, max_eq_right hlt.le]
          by_cases heq : kscore p k = runBest p (kscore p k) ks
          · -- no later keypoint beats k: the outer find? returns k itself
            have hfind : (k :: ks).find?
                (bestPred p s.bestScore (runBest p s.bestScore (k :: ks))) = some k := by
              apply List.find?_cons_of_pos
              rw [hBB, ← heq]
              unfold bestPred
              simp [hq, hlt]
            have hnone : ks.find? (bestPred p (kscore p k) (kscore p k)) = none := by
              rw [List.find?_eq_none]
              intro k' _
              unfold bestPred
              simp only [Bool.and_eq_true, decide_eq_true_eq]
              rintro ⟨⟨_, hx⟩, hy⟩
              rw [hy] at hx
              exact lt_irrefl _ hx
            rw [hfind, ih (step p s k), hbs, ← heq, hnone]
            exact hstep
          · -- some later keypoint reaches a strictly larger final best
            have hled : kscore p k ≤ runBest p (kscore p k) ks := le_runBest _ _ _
            have hlt2 : kscore p k < runBest p (kscore p k) ks := lt_of_le_of_ne hled heq
            have hpredk : ¬ bestPred p s.bestScore (runBest p (kscore p k) ks) k = true := by
              unfold bestPred
              simp [heq]
            have hcong : ∀ k' ∈ ks,
                bestPred p (kscore p k) (runBest p (kscore p k) ks) k'
                  = bestPred p s.bestScore (runBest p (kscore p k) ks) k' := by
              intro k' _
              unfold bestPred
              by_cases hB' : kscore p k' = runBest p (kscore p k) ks
              · have hx : kscore p k < kscore p k' := by rw [hB']; exact hlt2
                have hy : s.bestScore < kscore p k' := lt_trans hlt hx
                simp [hx, hy]
              · simp [hB']
            obtain ⟨k', hk'mem, hq', hks'⟩ := runBest_mem p ks (kscore p k) (Ne.symm heq)
            have hsome : (ks.find?
                (bestPred p s.bestScore (runBest p (kscore p k) ks))).isSome = true := by
              rw [List.find?_isSome]
              refine ⟨k', hk'mem, ?_⟩
              unfold bestPred
              have hy : s.bestScore < kscore p k' := by
                rw [hks']; exact lt_trans hlt hlt2
              simp [hq', hks', hy, lt_trans hlt hlt2]
            obtain ⟨kf, hkf⟩ := Option.isSome_iff_exists.mp hsome
            rw [hBB, List.find?_cons_of_neg _ hpredk, ih (step p s k), hbs,
              find_congr_mem _ _ ks hcong, hkf]
        · -- k is qualified but does not improve the running best
          have hle : kscore p k ≤ s.bestScore := not_lt.mp hlt
          have hbs : (step p s k).bestScore = s.bestScore := by
            rw [step_bestScore, if_pos hq, max_eq_left hle]
          have hstep : ((step p s k).hitType, (step p s k).damage)
              = (s.hitType, s.damage) := by
            rw [step_typeDamage, if_neg (fun h => hlt h.2)]
          have hBB : runBest p s.bestScore (k :: ks) = runBest p s.bestScore ks := by
            rw [runBest_cons, if_pos hq, max_eq_left hle]
          have hpredk : ¬ bestPred p s.bestScore (runBest p s.bestScore ks) k = true := by
            unfold bestPred
            simp [hlt]
          rw [hBB, List.find?_cons_of_neg _ hpredk, ih (step p s k), hbs]
          cases hf : ks.find? (bestPred p s.bestScore (runBest p s.bestScore ks))
          · exact hstep
          · rfl
      · -- k is not qualified: the step may only set hitDetected
        rw [Bool.not_eq_true] at hq
        have hbs : (step p s k).bestScore = s.bestScore := by
          rw [step_bestScore, if_neg (by simp [hq])]
        have hstep : ((step p s k).hitType, (step p s k).damage)
            = (s.hitType, s.damage) := by
          rw [step_typeDamage, if_neg (by simp [hq])]
        have hBB : runBest p s.bestScore (k :: ks) = runBest p s.bestScore ks := by
          rw [runBest_cons, if_neg (by simp [hq])]
        have hpredk : ¬ bestPred p s.bestScore (runBest p s.bestScore ks) k = true := by
          unfold bestPred
          simp [hq]
        rw [hBB, List.find?_cons_of_neg _ hpredk, ih (step p s k), hbs]
        cases hf : ks.find? (bestPred p s.bestScore (runBest p s.bestScore ks))
        · exact hstep
        · rfl

/-! ### Consequences for a full shot evaluation -/

theorem evalShot_hitDetected (g : Gun) (kps : List Keypoint) :
    (evalShot g kps).hitDetected = (allKeypoints kps).any (inRange g) := by
  have h := runLoop_hitDetected (shotParams g kps) (allKeypoints kps) initLoop
  simpa [evalShot, initLoop, shotParams] using h

theorem evalShot_bestScore (g : Gun) (kps : List Keypoint) :
    (evalShot g kps).bestScore = runBest (shotParams g kps) 0 (allKeypoints kps) := by
  have h := runLoop_bestScore (shotParams g kps) (allKeypoints kps) initLoop
  simpa [evalShot, initLoop] using h

theorem evalShot_typeDamage (g : Gun) (kps : List Keypoint) :
    ((evalShot g kps).hitType, (evalShot g kps).damage) =
      match (allKeypoints kps).find?
          (bestPred (shotParams g kps) 0
            (runBest (shotParams g kps) 0 (allKeypoints kps))) with
      | some k => (classify (shotParams g kps) k, classifyDamage (shotParams g kps) k)
      | none => (none, 0) :=
  runLoop_typeDamage (shotParams g kps) (allKeypoints kps) initLoop

/-- If no keypoint of the concatenated list qualifies, the loop reports no
zone and damage `0` (though `hitDetected` may still be true). -/
theorem evalShot_no_qualifier (g : Gun) (kps : List Keypoint)
    (h : ∀ k ∈ allKeypoints kps, qualified (shotParams g kps) k = false) :
    (evalShot g kps).hitType = none ∧ (evalShot g kps).damage = 0 := by
  have htd := evalShot_typeDamage g kps
  have hnone : (allKeypoints kps).find?
      (bestPred (shotParams g kps) 0
        (runBest (shotParams g kps) 0 (allKeypoints kps))) = none := by
    rw [List.find?_eq_none]
    intro k hk
    unfold bestPred
    simp [h k hk]
  rw [hnone] at htd
  simp only [Prod.mk.injEq] at htd
  exact htd

/-- If some keypoint of the concatenated list qualifies, the loop reports a
zone. -/
theorem evalShot_qualifier_some (g : Gun) (kps : List Keypoint) (k0 : Keypoint)
    (hk0 : k0 ∈ allKeypoints kps)
    (hq0 : qualified (shotParams g kps) k0 = true) :
    ∃ z, (evalShot g kps).hitType = some z := by
  have hpos : 0 < kscore (shotParams g kps) k0 := zero_lt_kscore _ k0 hq0
  have hBpos : 0 < runBest (shotParams g kps) 0 (allKeypoints kps) :=
    lt_of_lt_of_le hpos (kscore_le_runBest _ _ k0 0 hk0 hq0)
  obtain ⟨k1, hk1, hq1, hks1⟩ := runBest_mem (shotParams g kps) (allKeypoints kps) 0
    (ne_of_gt hBpos)
  have h0 : 0 < kscore (shotParams g kps) k1 := by rw [hks1]; exact hBpos
  have hsome : ((allKeypoints kps).find?
      (bestPred (shotParams g kps) 0
        (runBest (shotParams g kps) 0 (allKeypoints kps)))).isSome = true := by
    rw [List.find?_isSome]
    refine ⟨k1, hk1, ?_⟩
    unfold bestPred
    simp [hq1, hks1, h0, hBpos]
  obtain ⟨kf, hkf⟩ := Option.isSome_iff_exists.mp hsome
  have htd := evalShot_typeDamage g kps
  rw [hkf] at htd
  simp only [Prod.mk.injEq] at htd
  have hpred := List.find?_some hkf
  unfold bestPred at hpred
  rw [Bool.and_eq_true, Bool.and_eq_true] at hpred
  have hqf := hpred.1.1
  rw [qualified, Bool.and_eq_true] at hqf
  obtain ⟨z, hz⟩ := Option.isSome_iff_exists.mp hqf.2
  exact ⟨z, by rw [htd.1, hz]⟩

/-- On a reported zone `z`, the damage is the zone's damage constant, the
winning score is the final best score, `z` is achieved by some qualified
in-range keypoint, and no qualified keypoint scores above it. -/
theorem evalShot_winner_spec (g : Gun) (kps : List Keypoint) (z : Zone)
    (h : (evalShot g kps).hitType = some z) :
    (evalShot g kps).damage = zoneDamage z ∧
      (∃ kf ∈ allKeypoints kps, qualified (shotParams g kps) kf = true ∧
        classify (shotParams g kps) kf = some z ∧
        kscore (shotParams g kps) kf
          = runBest (shotParams g kps) 0 (allKeypoints kps)) ∧
      (∀ k ∈ allKeypoints kps, qualified (shotParams g kps) k = true →
        kscore (shotParams g kps) k ≤ zoneScore (shotParams g kps) z) := by
  have htd := evalShot_typeDamage g kps
  cases hkf : (allKeypoints kps).find?
      (bestPred (shotParams g kps) 0
        (runBest (shotParams g kps) 0 (allKeypoints kps))) with
  | none =>
      rw [hkf] at htd
      simp only [Prod.mk.injEq] at htd
      rw [htd.1] at h
      cases h
  | some kf =>
      rw [hkf] at htd
      simp only [Prod.mk.injEq] at htd
      have hpred := List.find?_some hkf
      unfold bestPred at hpred
      rw [Bool.and_eq_true, Bool.and_eq_true] at hpred
      have hqf : qualified (shotParams g kps) kf = true := hpred.1.1
      have hkfB : kscore (shotParams g kps) kf
          = runBest (shotParams g kps) 0 (allKeypoints kps) :=
        of_decide_eq_true hpred.2
      have hcz : classify (shotParams g kps) kf = some z := by
        rw [htd.1] at h
        exact h
      have hzs : zoneScore (shotParams g kps) z = kscore (shotParams g kps) kf := by
        rw [kscore, hcz]
      refine ⟨?_, ⟨kf, List.mem_of_find?_eq_some hkf, hqf, hcz, hkfB⟩, ?_⟩
      · rw [htd.2, classifyDamage, hcz]
      · intro k hk hq
        rw [hzs, hkfB]
        exact kscore_le_runBest _ _ k 0 hk hq

/-- The loop's damage is `0` exactly when no zone was reported. -/
theorem evalShot_damage_zero (g : Gun) (kps : List Keypoint) :
    (evalShot g kps).damage = 0 ↔ (evalShot g kps).hitType = none := by
  have htd := evalShot_typeDamage g kps
  cases hkf : (allKeypoints kps).find?
      (bestPred (shotParams g kps) 0
        (runBest (shotParams g kps) 0 (allKeypoints kps))) with
  | none =>
      rw [hkf] at htd
      simp only [Prod.mk.injEq] at htd
      rw [htd.1, htd.2]
      simp
  | some kf =>
      rw [hkf] at htd
      simp only [Prod.mk.injEq] at htd
      have hpred := List.find?_some hkf
      unfold bestPred at hpred
      rw [Bool.and_eq_true, Bool.and_eq_true] at hpred
      have hqf : qualified (shotParams g kps) kf = true := hpred.1.1
      rw [qualified, Bool.and_eq_true] at hqf
      obtain ⟨z, hz⟩ := Option.isSome_iff_exists.mp hqf.2
      rw [htd.1, htd.2, classifyDamage, hz]
      constructor
      · intro hd
        exfalso
        cases z <;> simp [zoneDamage] at hd
      · intro hn
        cases hn

/-! ### Session state machine lemmas -/

/-- `handleShoot` can only change `lastShot`; every other field survives. -/
theorem handleShoot_frame (s : GameState) (h : Handles) (now : Int)
    (pose : Option (List Keypoint)) :
    (handleShoot s h now pose).state.gameStatus = s.gameStatus ∧
      (handleShoot s h now pose).state.winner = s.winner ∧
      (handleShoot s h now pose).state.players = s.players ∧
      (handleShoot s h now pose).state.socketId = s.socketId ∧
      (handleShoot s h now pose).state.selectedGun = s.selectedGun := by
  unfold handleShoot
  split
  · exact ⟨rfl, rfl, rfl, rfl, rfl⟩
  · split
    · exact ⟨rfl, rfl, rfl, rfl, rfl⟩
    · cases pose
      · exact ⟨rfl, rfl, rfl, rfl, rfl⟩
      · exact ⟨rfl, rfl, rfl, rfl, rfl⟩

/-- The over-implies-winner half of the session invariant is preserved by
every event. -/
theorem statusInv_step (s : GameState) (e : Event)
    (h : s.gameStatus = GameStatus.over → s.winner.isSome = true) :
    (stepEvent s e).gameStatus = GameStatus.over →
      (stepEvent s e).winner.isSome = true := by
  cases e with
  | connect id => exact h
  | playerUpdate ps =>
      show (onPlayerUpdate s ps).gameStatus = GameStatus.over →
        (onPlayerUpdate s ps).winner.isSome = true
      unfold onPlayerUpdate
      split
      · intro hov
        exact absurd (show GameStatus.ready = GameStatus.over from hov) (by decide)
      · exact h
  | gameOver w => intro _; rfl
  | reset =>
      intro hov
      exact absurd (show GameStatus.waiting = GameStatus.over from hov) (by decide)
  | gunChange g => exact h
  | shoot hnd now pose =>
      have hf := handleShoot_frame s hnd now pose
      intro hov
      have hov2 : (handleShoot s hnd now pose).state.gameStatus = GameStatus.over := hov
      rw [hf.1] at hov2
      show (handleShoot s hnd now pose).state.winner.isSome = true
      rw [hf.2.1]
      exact h hov2

theorem statusInv_foldl (evs : List Event) :
    ∀ s : GameState, (s.gameStatus = GameStatus.over → s.winner.isSome = true) →
      ((evs.foldl stepEvent s).gameStatus = GameStatus.over →
        (evs.foldl stepEvent s).winner.isSome = true) := by
  induction evs with
  | nil => intro s h; exact h
  | cons e evs ih =>
      intro s h
      exact ih (stepEvent s e) (statusInv_step s e h)

/-! ### Duplicate keypoints (leftHip/rightHip) are absorbed by the loop -/

theorem loopState_ext (s t : LoopState)
    (h1 : s.hitDetected = t.hitDetected) (h2 : s.damage = t.damage)
    (h3 : s.bestScore = t.bestScore) (h4 : s.hitType = t.hitType) : s = t := by
  cases s
  cases t
  simp_all

/-- Running the loop over extra keypoints that already occurred in the first
segment leaves the state unchanged. -/
theorem runLoop_append_subset (p : ShotParams) (L1 L2 : List Keypoint)
    (hsub : ∀ k ∈ L2, k ∈ L1) :
    runLoop p initLoop (L1 ++ L2) = runLoop p initLoop L1 := by
  have hfold : runLoop p initLoop (L1 ++ L2)
      = runLoop p (runLoop p initLoop L1) L2 := by
    unfold runLoop
    rw [List.foldl_append]
  set s1 := runLoop p initLoop L1 with hs1
  have hb1 : s1.bestScore = runBest p 0 L1 := runLoop_bestScore p L1 initLoop
  have hb : (runLoop p s1 L2).bestScore = s1.bestScore := by
    rw [runLoop_bestScore, hb1]
    exact runBest_absorb p L2 _
      (fun k hk hq => kscore_le_runBest p L1 k 0 (hsub k hk) hq)
  have hd : (runLoop p s1 L2).hitDetected = s1.hitDetected := by
    rw [runLoop_hitDetected]
    cases hany : L2.any (inRange p.gun) with
    | false => simp
    | true =>
        obtain ⟨k, hk, hr⟩ := List.any_eq_true.mp hany
        have hstrue : s1.hitDetected = true := by
          rw [hs1, runLoop_hitDetected]
          have hL1 : L1.any (inRange p.gun) = true :=
            List.any_eq_true.mpr ⟨k, hsub k hk, hr⟩
          rw [hL1]
          rfl
        rw [hstrue]
        rfl
  have htd : ((runLoop p s1 L2).hitType, (runLoop p s1 L2).damage)
      = (s1.hitType, s1.damage) := by
    have h2 := runLoop_typeDamage p L2 s1
    have hnone : L2.find? (bestPred p s1.bestScore (runBest p s1.bestScore L2))
        = none := by
      rw [List.find?_eq_none]
      intro k hk
      unfold bestPred
      simp only [Bool.and_eq_true, decide_eq_true_eq]
      rintro ⟨⟨hq, hlt⟩, _⟩
      have hle : kscore p k ≤ s1.bestScore := by
        rw [hb1]
        exact kscore_le_runBest p L1 k 0 (hsub k hk) hq
      exact absurd hlt (not_lt.mpr hle)
    rw [hnone] at h2
    exact h2
  simp only [Prod.mk.injEq] at htd
  rw [hfold]
  exact loopState_ext _ _ hd htd.2 hb htd.1

/-! ### The keypoint-selection lists -/

theorem filterMap_id_map {A B : Type} (f : A → Option B) (l : List A) :
    (l.map f).filterMap id = l.filterMap f := by
  induction l with
  | nil => rfl
  | cons a l ih => cases h : f a <;> simp [List.filterMap_cons, h, ih]

theorem mem_selectKeypoints (parts : List String) (kps : List Keypoint)
    (k : Keypoint) :
    k ∈ selectKeypoints parts kps ↔
      (∃ pt ∈ parts, kps.find? (fun k2 => k2.part == pt) = some k) ∧
        (3 : ℚ)/10 < k.score := by
  unfold selectKeypoints
  rw [filterMap_id_map, List.mem_filter, List.mem_filterMap]
  simp only [decide_eq_true_eq]

theorem lowerBody_subset_torso (kps : List Keypoint) :
    ∀ k ∈ lowerBodyKeypoints kps, k ∈ torsoKeypoints kps := by
  intro k hk
  rw [lowerBodyKeypoints, mem_selectKeypoints] at hk
  rw [torsoKeypoints, mem_selectKeypoints]
  obtain ⟨⟨pt, hpt, hfind⟩, hs⟩ := hk
  refine ⟨⟨pt, ?_, hfind⟩, hs⟩
  have hpt2 : pt = "leftHip" ∨ pt = "rightHip" := by
    simpa [lowerBodyParts] using hpt
  rcases hpt2 with rfl | rfl <;> simp [torsoParts]

theorem mem_allKeypoints (kps : List Keypoint) (k : Keypoint) :
    k ∈ allKeypoints kps ↔ k ∈ headKeypoints kps ++ torsoKeypoints kps := by
  unfold allKeypoints
  simp only [List.mem_append]
  constructor
  · rintro ((h | h) | h)
    · exact Or.inl h
    · exact Or.inr h
    · exact Or.inr (lowerBody_subset_torso kps k h)
  · rintro (h | h)
    · exact Or.inl (Or.inl h)
    · exact Or.inl (Or.inr h)

theorem sel_part_mem (parts : List String) (kps : List Keypoint) (k : Keypoint)
    (hk : k ∈ selectKeypoints parts kps) : k.part ∈ parts := by
  rw [mem_selectKeypoints] at hk
  obtain ⟨⟨pt, hpt, hfind⟩, _⟩ := hk
  have hb := List.find?_some hfind
  rw [beq_iff_eq] at hb
  rw [hb]
  exact hpt

theorem sel_parts_sublist (kps : List Keypoint) :
    ∀ parts : List String,
      ((selectKeypoints parts kps).map Keypoint.part).Sublist parts := by
  intro parts
  induction parts with
  | nil => simp [selectKeypoints]
  | cons pt parts ih =>
      cases hf : kps.find? (fun k2 => k2.part == pt) with
      | none =>
          have he : selectKeypoints (pt :: parts) kps = selectKeypoints parts kps := by
            unfold selectKeypoints
            simp [hf, List.filterMap_cons]
          rw [he]
          exact ih.cons pt
      | some k =>
          have hkp : k.part = pt := by
            have h2 := List.find?_some hf
            rwa [beq_iff_eq] at h2
          by_cases hq : (3 : ℚ)/10 < k.score
          · have he : selectKeypoints (pt :: parts) kps
                = k :: selectKeypoints parts kps := by
              unfold selectKeypoints
              simp [hf, List.filterMap_cons, List.filter_cons, hq]
            rw [he, List.map_cons, hkp]
            exact ih.cons₂ pt
          · have he : selectKeypoints (pt :: parts) kps = selectKeypoints parts kps := by
              unfold selectKeypoints
              simp [hf, List.filterMap_cons, List.filter_cons, hq]
            rw [he]
            exact ih.cons pt

theorem sel_nodup (parts : List String) (kps : List Keypoint) (hp : parts.Nodup) :
    (selectKeypoints parts kps).Nodup :=
  List.Nodup.of_map Keypoint.part
    (List.Nodup.sublist (sel_parts_sublist kps parts) hp)

/-- The head/torso concatenation processes pairwise-distinct keypoints. -/
theorem headTorso_nodup (kps : List Keypoint) :
    (headKeypoints kps ++ torsoKeypoints kps).Nodup := by
  rw [List.nodup_append]
  refine ⟨sel_nodup _ _ (by decide), sel_nodup _ _ (by decide), ?_⟩
  intro k hk1 hk2
  have h1 := sel_part_mem headParts kps k hk1
  have h2 := sel_part_mem torsoParts kps k hk2
  have h1d : k.part = "nose" ∨ k.part = "leftEye" ∨ k.part = "rightEye"
      ∨ k.part = "leftEar" ∨ k.part = "rightEar" := by
    simpa [headParts] using h1
  have h2d : k.part = "leftShoulder" ∨ k.part = "rightShoulder"
      ∨ k.part = "leftHip" ∨ k.part = "rightHip" := by
    simpa [torsoParts] using h2
  rcases h1d with h1d | h1d | h1d | h1d | h1d <;>
    rcases h2d with h2d | h2d | h2d | h2d <;>
      (rw [h1d] at h2d; exact absurd h2d (by decide))

/-! ### Claims -/

/-- C1, counterexample: deliver a 2-player roster in Waiting (phase becomes
Ready), then deliver a 1-player roster.  The reachable result keeps phase
Ready with a single-player roster, violating the claimed invariant
`phase = Ready → players.length = 2`. -/
theorem C1_counterexample :
    reachable
      { players := [{ id := "p1", health := 100, ready := false }],
        gameStatus := GameStatus.ready, winner := none, socketId := none,
        lastShot := 0, selectedGun := Gun.pistol } ∧
      ([{ id := "p1", health := 100, ready := false }] : List Player).length < 2 := by
  constructor
  · exact ⟨[Event.playerUpdate [{ id := "p1", health := 100, ready := false },
        { id := "p2", health := 100, ready := false }],
      Event.playerUpdate [{ id := "p1", health := 100, ready := false }]], by decide⟩
  · decide

/-- C1 (amended): in every reachable state `phase = Over` implies a recorded
winner; the Ready half of the claimed invariant fails — a `playerUpdate`
delivered while Ready replaces the roster wholesale and leaves the phase
Ready even when fewer than two players are delivered. -/
theorem C1_session_invariant :
    (∀ s : GameState, reachable s →
        s.gameStatus = GameStatus.over → s.winner.isSome = true) ∧
    (∀ (s : GameState) (ps : List Player), s.gameStatus = GameStatus.ready →
        (onPlayerUpdate s ps).gameStatus = GameStatus.ready ∧
          (onPlayerUpdate s ps).players = ps) := by
  constructor
  · rintro s ⟨evs, rfl⟩
    exact statusInv_foldl evs initialState
      (fun hov => absurd (show GameStatus.waiting = GameStatus.over from hov) (by decide))
  · intro s ps hr
    unfold onPlayerUpdate
    rw [if_neg]
    · exact ⟨hr, rfl⟩
    · rintro ⟨_, hw⟩
      rw [hr] at hw
      exact absurd hw (by decide)

theorem C1_session_invariant_witness :
    (([Event.gameOver "w1"].foldl stepEvent initialState).winner.isSome = true) ∧
    (onPlayerUpdate
      { players := [], gameStatus := GameStatus.ready, winner := none,
        socketId := none, lastShot := 0, selectedGun := Gun.pistol } []).gameStatus
      = GameStatus.ready := by
  constructor
  · exact C1_session_invariant.1 _ ⟨[Event.gameOver "w1"], rfl⟩ (by decide)
  · exact (C1_session_invariant.2 _ [] rfl).1

/-- C2, counterexample: the single keypoint `nose` at (320,300) with score
0.9 under the pistol radius.  No keypoint satisfies range + zone y-band +
collective score (the nose fails the head band and belongs to no other
group), yet the attempt reports `hitDetected = true` and a `shoot` message
(damage 0) IS sent to the relay. -/
theorem C2_counterexample :
    (∀ k ∈ ([{ part := "nose", x := 320, y := 300, score := 9/10 }] : List Keypoint),
        qualified (shotParams Gun.pistol
          [{ part := "nose", x := 320, y := 300, score := 9/10 }]) k = false) ∧
    (evalShot Gun.pistol
      [{ part := "nose", x := 320, y := 300, score := 9/10 }]).hitDetected = true ∧
    shootEmission (some "cx2") Gun.pistol
        [{ part := "nose", x := 320, y := 300, score := 9/10 }]
      = some { shooterId := some "cx2", damage := 0 } := by
  decide

/-- C2 (amended): when no selected keypoint lies inside the aim radius the
attempt reports no hit and sends nothing; but the claimed guard is too weak —
when some selected keypoint is in range while no zone qualifies, the code
still emits a `shoot` message carrying damage 0. -/
theorem C2_no_qualifier (sid : Option String) (g : Gun) (kps : List Keypoint) :
    ((∀ k ∈ allKeypoints kps, inRange g k = false) →
      (evalShot g kps).hitDetected = false ∧ shootEmission sid g kps = none) ∧
    ((allKeypoints kps).any (inRange g) = true →
      (∀ k ∈ allKeypoints kps, qualified (shotParams g kps) k = false) →
      shootEmission sid g kps = some { shooterId := sid, damage := 0 }) := by
  constructor
  · intro hnone
    have hd : (evalShot g kps).hitDetected = false := by
      rw [evalShot_hitDetected, List.any_eq_false]
      intro k hk
      simp [hnone k hk]
    refine ⟨hd, ?_⟩
    unfold shootEmission
    rw [if_neg]
    rw [hd]
    exact Bool.false_ne_true
  · intro hany hnq
    have hd : (evalShot g kps).hitDetected = true := by
      rw [evalShot_hitDetected]
      exact hany
    have h0 := (evalShot_no_qualifier g kps hnq).2
    unfold shootEmission
    rw [if_pos hd, h0]

theorem C2_no_qualifier_witness :
    shootEmission (some "w2") Gun.pistol
        [{ part := "nose", x := 310, y := 300, score := 9/10 }]
      = some { shooterId := some "w2", damage := 0 } ∧
    shootEmission (some "w2") Gun.sniper
        [{ part := "nose", x := 320, y := 470, score := 9/10 }] = none := by
  constructor
  · exact (C2_no_qualifier (some "w2") Gun.pistol _).2 (by decide) (by decide)
  · exact ((C2_no_qualifier (some "w2") Gun.sniper _).1 (by decide)).2

/-- C3, counterexample: on `pose3` both the Torso zone (via rightHip, in the
torso band) and the LowerBody zone (via leftHip, below it) qualify with equal
collective scores 0.6.  The claimed Head→Torso→LowerBody tie-break demands
the winner Torso with damage 15, but the code reports LowerBody with damage
10: the leftHip occurrence inside the torso segment of the concatenated list
is classified by its own y into LowerBody and is processed first. -/
theorem C3_counterexample :
    (∃ k ∈ allKeypoints pose3, qualified (shotParams Gun.pistol pose3) k = true ∧
        classify (shotParams Gun.pistol pose3) k = some Zone.torso) ∧
    (∃ k ∈ allKeypoints pose3, qualified (shotParams Gun.pistol pose3) k = true ∧
        classify (shotParams Gun.pistol pose3) k = some Zone.lowerBody) ∧
    (shotParams Gun.pistol pose3).torsoScore
      = (shotParams Gun.pistol pose3).lowerBodyScore ∧
    (evalShot Gun.pistol pose3).hitType = some Zone.lowerBody ∧
    (evalShot Gun.pistol pose3).damage = 10 := by
  decide

/-- C3 (amended): a reported zone has the maximal collective score among all
zones reached by qualifying keypoints, and its damage is 20/15/10 for
Head/Torso/LowerBody; on ties, however, the winner is the zone of the first
qualifying keypoint achieving that score in the concatenated
head/torso/lower-body evaluation order (each keypoint classified by its own
y-band), which does not always coincide with the Head→Torso→LowerBody zone
order. -/
theorem C3_winner (g : Gun) (kps : List Keypoint) (z : Zone)
    (h : (evalShot g kps).hitType = some z) :
    (∃ k ∈ allKeypoints kps, qualified (shotParams g kps) k = true ∧
        classify (shotParams g kps) k = some z) ∧
    (∀ k ∈ allKeypoints kps, qualified (shotParams g kps) k = true →
        kscore (shotParams g kps) k ≤ zoneScore (shotParams g kps) z) ∧
    (evalShot g kps).damage = zoneDamage z ∧
    (∃ k0, (allKeypoints kps).find?
        (fun k => qualified (shotParams g kps) k &&
          decide (kscore (shotParams g kps) k = zoneScore (shotParams g kps) z))
        = some k0 ∧
      classify (shotParams g kps) k0 = some z) := by
  obtain ⟨hdmg, ⟨kf, hkfmem, hqf, hcz, hkfB⟩, hmax⟩ := evalShot_winner_spec g kps z h
  refine ⟨⟨kf, hkfmem, hqf, hcz⟩, hmax, hdmg, ?_⟩
  have htd := evalShot_typeDamage g kps
  cases hf : (allKeypoints kps).find?
      (bestPred (shotParams g kps) 0
        (runBest (shotParams g kps) 0 (allKeypoints kps))) with
  | none =>
      rw [hf] at htd
      simp only [Prod.mk.injEq] at htd
      rw [htd.1] at h
      cases h
  | some k0 =>
      rw [hf] at htd
      simp only [Prod.mk.injEq] at htd
      have hcz0 : classify (shotParams g kps) k0 = some z := by
        rw [← htd.1]
        exact h
      refine ⟨k0, ?_, hcz0⟩
      have hzskf : zoneScore (shotParams g kps) z = kscore (shotParams g kps) kf := by
        rw [kscore, hcz]
      have hzsB : zoneScore (shotParams g kps) z
          = runBest (shotParams g kps) 0 (allKeypoints kps) := by
        rw [hzskf, hkfB]
      rw [← hf]
      apply find_congr_mem
      intro k hk
      unfold bestPred
      by_cases hq : qualified (shotParams g kps) k = true
      · have h0 : 0 < kscore (shotParams g kps) k := zero_lt_kscore _ _ hq
        simp [hq, h0, hzsB]
      · rw [Bool.not_eq_true] at hq
        simp [hq]

theorem C3_winner_witness :
    (evalShot Gun.pistol [{ part := "nose", x := 330, y := 200, score := 9/10 }]).damage
      = zoneDamage Zone.head :=
  (C3_winner Gun.pistol _ Zone.head (by decide)).2.2.1

/-- C4: once a shot at `t1` has passed the cooldown (setting `lastShot = t1`),
a second invocation at `t2` with `t2 - t1 < 500` returns before doing
anything: no pose estimation, no relay message, and the state — `lastShot`
included — is unchanged. -/
theorem C4_cooldown (s : GameState) (h : Handles) (t1 t2 : Int)
    (pose1 pose2 : Option (List Keypoint))
    (hh : h.socket = true ∧ h.net = true ∧ h.video = true)
    (h1 : ¬ t1 - s.lastShot < 500) (h2 : t2 - t1 < 500) :
    handleShoot (handleShoot s h t1 pose1).state h t2 pose2 =
      { state := (handleShoot s h t1 pose1).state, poseCalled := false,
        emitted := none } := by
  have hs1 : (handleShoot s h t1 pose1).state.lastShot = t1 := by
    unfold handleShoot
    rw [if_neg (not_not_intro hh), if_neg h1]
    cases pose1 <;> rfl
  set s1 := (handleShoot s h t1 pose1).state with hdef
  unfold handleShoot
  rw [if_neg (not_not_intro hh), if_pos (by rw [hs1]; exact h2)]

theorem C4_cooldown_witness :
    handleShoot (handleShoot initialState { socket := true, net := true, video := true }
        1000 none).state { socket := true, net := true, video := true } 1200 none =
      { state := (handleShoot initialState { socket := true, net := true, video := true }
          1000 none).state, poseCalled := false, emitted := none } :=
  C4_cooldown initialState { socket := true, net := true, video := true } 1000 1200
    none none ⟨rfl, rfl, rfl⟩ (by decide) (by decide)

/-- C5: a roster update delivered in Waiting replaces the roster wholesale;
with exactly two distinct players the phase becomes Ready, with fewer than
two it stays Waiting. -/
theorem C5_roster_update (s : GameState) (ps : List Player)
    (hw : s.gameStatus = GameStatus.waiting) :
    (ps.length = 2 ∧ ps.Nodup → (onPlayerUpdate s ps).gameStatus = GameStatus.ready) ∧
    (ps.length < 2 → (onPlayerUpdate s ps).gameStatus = GameStatus.waiting) ∧
    (onPlayerUpdate s ps).players = ps := by
  refine ⟨?_, ?_, ?_⟩
  · rintro ⟨h2, _⟩
    unfold onPlayerUpdate
    rw [if_pos ⟨h2, hw⟩]
  · intro hlt
    unfold onPlayerUpdate
    rw [if_neg]
    · exact hw
    · rintro ⟨h2, _⟩
      rw [h2] at hlt
      exact absurd hlt (by decide)
  · unfold onPlayerUpdate
    split <;> rfl

theorem C5_roster_update_witness :
    (onPlayerUpdate initialState
        [{ id := "a1", health := 100, ready := false },
         { id := "b1", health := 100, ready := false }]).gameStatus
      = GameStatus.ready ∧
    (onPlayerUpdate initialState []).gameStatus = GameStatus.waiting := by
  constructor
  · exact (C5_roster_update initialState _ rfl).1 ⟨rfl, by decide⟩
  · exact (C5_roster_update initialState [] rfl).2.1 (by decide)

/-- C6: a `gameOver {winner}` event, delivered in any phase, yields phase
Over and records the delivered winner id. -/
theorem C6_gameOver (s : GameState) (w : String) :
    (onGameOver s w).gameStatus = GameStatus.over ∧ (onGameOver s w).winner = some w :=
  ⟨rfl, rfl⟩

/-- C7: a shot attempted while the phase is not Ready, or while any of the
socket/pose-net/video handles is missing, is a silent no-op — `handleShoot`
is total (the only fallible call sits inside the source try/catch), performs
no pose estimation, emits nothing, and leaves the state untouched.  The
phase disjunct reduces to the missing-video guard through the render
coupling: the video element is mounted only while `rendersVideo` holds. -/
theorem C7_noop (s : GameState) (h : Handles) (now : Int)
    (pose : Option (List Keypoint))
    (hrender : h.video = true → rendersVideo s.gameStatus = true)
    (hcond : s.gameStatus ≠ GameStatus.ready ∨
      h.socket = false ∨ h.net = false ∨ h.video = false) :
    handleShoot s h now pose = { state := s, poseCalled := false, emitted := none } := by
  have hmiss : ¬ (h.socket = true ∧ h.net = true ∧ h.video = true) := by
    rcases hcond with hph | hs | hn | hv
    · rintro ⟨_, _, hv⟩
      have h2 := hrender hv
      rw [rendersVideo, beq_iff_eq] at h2
      exact hph h2
    · rintro ⟨hs2, _, _⟩
      rw [hs] at hs2
      exact absurd hs2 (by decide)
    · rintro ⟨_, hn2, _⟩
      rw [hn] at hn2
      exact absurd hn2 (by decide)
    · rintro ⟨_, _, hv2⟩
      rw [hv] at hv2
      exact absurd hv2 (by decide)
  unfold handleShoot
  rw [if_pos hmiss]

theorem C7_noop_witness :
    handleShoot initialState { socket := true, net := true, video := false } 7 none =
      { state := initialState, poseCalled := false, emitted := none } :=
  C7_noop initialState { socket := true, net := true, video := false } 7 none
    (fun hv => absurd hv (by decide)) (Or.inl (by decide))

/-- C8: the aim radii are 100/200/400 for Sniper/Pistol/Shotgun; the damage
constants 20/15/10 per zone and the collective scores are gun-independent,
so two weapons reporting the same winning zone always assign the same
damage — switching weapon can only change which keypoints are in range. -/
theorem C8_weapon_profile :
    (radius Gun.sniper = 100 ∧ radius Gun.pistol = 200 ∧ radius Gun.shotgun = 400) ∧
    (zoneDamage Zone.head = 20 ∧ zoneDamage Zone.torso = 15 ∧
      zoneDamage Zone.lowerBody = 10) ∧
    (∀ (g1 g2 : Gun) (kps : List Keypoint),
        (shotParams g1 kps).headScore = (shotParams g2 kps).headScore ∧
        (shotParams g1 kps).torsoScore = (shotParams g2 kps).torsoScore ∧
        (shotParams g1 kps).lowerBodyScore = (shotParams g2 kps).lowerBodyScore) ∧
    (∀ (g : Gun) (kps : List Keypoint) (z : Zone),
        (evalShot g kps).hitType = some z → (evalShot g kps).damage = zoneDamage z) ∧
    (∀ (g1 g2 : Gun) (kps : List Keypoint) (z : Zone),
        (evalShot g1 kps).hitType = some z → (evalShot g2 kps).hitType = some z →
        (evalShot g1 kps).damage = (evalShot g2 kps).damage) := by
  refine ⟨⟨rfl, rfl, rfl⟩, ⟨rfl, rfl, rfl⟩, ?_, ?_, ?_⟩
  · intro g1 g2 kps
    exact ⟨rfl, rfl, rfl⟩
  · intro g kps z h
    exact (evalShot_winner_spec g kps z h).1
  · intro g1 g2 kps z h1 h2
    rw [(evalShot_winner_spec g1 kps z h1).1, (evalShot_winner_spec g2 kps z h2).1]

theorem C8_weapon_profile_witness :
    (evalShot Gun.sniper [{ part := "nose", x := 320, y := 200, score := 9/10 }]).damage
      = (evalShot Gun.pistol
          [{ part := "nose", x := 320, y := 200, score := 9/10 }]).damage :=
  C8_weapon_profile.2.2.2.2 Gun.sniper Gun.pistol _ Zone.head (by decide) (by decide)

/-- C9, counterexample: a lone `leftKnee` keypoint with score 0.9 at the
frame center is inside every radius, and no zone qualifies, yet no shoot
message of any kind is emitted — the loop only ranges over the selected
head/torso/lower-body keypoints, so the claimed "damage 0 exactly when some
keypoint with score > 0.3 is in radius without a qualifying zone" fails. -/
theorem C9_counterexample :
    (∃ k ∈ ([{ part := "leftKnee", x := 320, y := 240, score := 9/10 }] : List Keypoint),
        (3 : ℚ)/10 < k.score ∧ inRange Gun.pistol k = true) ∧
    (∀ k ∈ ([{ part := "leftKnee", x := 320, y := 240, score := 9/10 }] : List Keypoint),
        qualified (shotParams Gun.pistol
          [{ part := "leftKnee", x := 320, y := 240, score := 9/10 }]) k = false) ∧
    shootEmission (some "cx9") Gun.pistol
        [{ part := "leftKnee", x := 320, y := 240, score := 9/10 }] = none := by
  decide

/-- C9 (amended): every emitted shoot message carries the local socket id and
a damage value in {0, 10, 15, 20}; a damage-0 message is emitted exactly when
some keypoint of the selected head/torso/lower-body lists (tracked part name,
score > 0.3) lies inside the aim radius while no zone qualifies. -/
theorem C9_emission (sid : Option String) (g : Gun) (kps : List Keypoint) :
    (∀ msg, shootEmission sid g kps = some msg →
        msg.shooterId = sid ∧
          (msg.damage = 0 ∨ msg.damage = 10 ∨ msg.damage = 15 ∨ msg.damage = 20)) ∧
    (shootEmission sid g kps = some { shooterId := sid, damage := 0 } ↔
      ((allKeypoints kps).any (inRange g) = true ∧
        ∀ k ∈ allKeypoints kps, qualified (shotParams g kps) k = false)) := by
  have htd := evalShot_typeDamage g kps
  constructor
  · intro msg hmsg
    unfold shootEmission at hmsg
    by_cases hd : (evalShot g kps).hitDetected = true
    · rw [if_pos hd] at hmsg
      cases hmsg
      refine ⟨rfl, ?_⟩
      cases hfind : (allKeypoints kps).find?
          (bestPred (shotParams g kps) 0
            (runBest (shotParams g kps) 0 (allKeypoints kps))) with
      | none =>
          rw [hfind] at htd
          simp only [Prod.mk.injEq] at htd
          exact Or.inl htd.2
      | some kf =>
          rw [hfind] at htd
          simp only [Prod.mk.injEq] at htd
          have hpred := List.find?_some hfind
          unfold bestPred at hpred
          rw [Bool.and_eq_true, Bool.and_eq_true] at hpred
          have hqf := hpred.1.1
          rw [qualified, Bool.and_eq_true] at hqf
          obtain ⟨z, hz⟩ := Option.isSome_iff_exists.mp hqf.2
          rw [htd.2, classifyDamage, hz]
          cases z
          · exact Or.inr (Or.inr (Or.inr rfl))
          · exact Or.inr (Or.inr (Or.inl rfl))
          · exact Or.inr (Or.inl rfl)
    · rw [if_neg hd] at hmsg
      cases hmsg
  · constructor
    · intro hmsg
      unfold shootEmission at hmsg
      by_cases hd : (evalShot g kps).hitDetected = true
      · refine ⟨by rw [← evalShot_hitDetected]; exact hd, ?_⟩
        rw [if_pos hd] at hmsg
        have hdmg : (evalShot g kps).damage = 0 :=
          congrArg ShootMsg.damage (Option.some.inj hmsg)
        have hnone := (evalShot_damage_zero g kps).mp hdmg
        intro k hk
        by_cases hq : qualified (shotParams g kps) k = true
        · obtain ⟨z, hz⟩ := evalShot_qualifier_some g kps k hk hq
          rw [hnone] at hz
          cases hz
        · rw [Bool.not_eq_true] at hq
          exact hq
      · rw [if_neg hd] at hmsg
        cases hmsg
    · rintro ⟨hany, hnq⟩
      have hd : (evalShot g kps).hitDetected = true := by
        rw [evalShot_hitDetected]
        exact hany
      have h0 := (evalShot_no_qualifier g kps hnq).2
      unfold shootEmission
      rw [if_pos hd, h0]

theorem C9_emission_witness :
    shootEmission (some "w9") Gun.pistol
        [{ part := "leftEar", x := 320, y := 290, score := 4/5 }]
      = some { shooterId := some "w9", damage := 0 } :=
  (C9_emission (some "w9") Gun.pistol _).2.mpr ⟨by decide, by decide⟩

/-- C10: the loop iterates over head ++ torso ++ lowerBody selections, so the
hip keypoints occur twice; the full loop state (hence the (hit, damage, zone)
triple) equals the one obtained from the duplicate-free head ++ torso list,
which contains every distinct keypoint of the concatenation exactly once. -/
theorem C10_duplicates (g : Gun) (kps : List Keypoint) :
    evalShot g kps
      = runLoop (shotParams g kps) initLoop
          (headKeypoints kps ++ torsoKeypoints kps) ∧
    (∀ k, k ∈ allKeypoints kps ↔ k ∈ headKeypoints kps ++ torsoKeypoints kps) ∧
    (headKeypoints kps ++ torsoKeypoints kps).Nodup := by
  refine ⟨?_, mem_allKeypoints kps, headTorso_nodup kps⟩
  unfold evalShot allKeypoints
  exact runLoop_append_subset _ _ _
    (fun k hk => List.mem_append.mpr (Or.inr (lowerBody_subset_torso kps k hk)))

end ARDM
